import Mathlib

/-!
A shallow embedding of the core logic of the `life-tracker` backend
(FastAPI + SQLAlchemy personal finance / goal tracking app), together with
theorems checking the natural-language specification against it.

Conventions of the embedding:
* SQL `Float` money/progress columns are modelled as `ℚ`.
* Nullable columns are modelled as `Option _`; Python truthiness of a nullable
  boolean column is `Option.getD · false`.
* A database table is a `List` of row structures; `db.query(...).filter(...)`
  becomes `List.filter` / `List.find?` with the same predicate, and SQL
  `count` becomes `List.length` of the filtered list.  Primary keys are
  unique in the real database, so "update the fetched row" is modelled as a
  map that rewrites the row(s) with the fetched row's id.
* Python `round(x, 2)` (round-half-to-even to two decimals) is `round2`.
* `datetime.date` values are modelled by `PyDate` (year, month, day) with
  Python's lexicographic comparison; calendar months are also indexed
  linearly by `12 * year + (month - 1)` where convenient.
-/

namespace LifeTracker


/-- Python `round(x, 2)`: round to two decimal places, ties to even
(banker's rounding), modelled over `ℚ`. -/

def round2 (q : ℚ) : ℚ :=
  let s : ℚ := q * 100
  let fl : ℤ := ⌊s⌋
  let frac : ℚ := s - (fl : ℚ)
  if frac < 1/2 then (fl : ℚ) / 100
  else if 1/2 < frac then ((fl + 1 : ℤ) : ℚ) / 100
  else if fl % 2 = 0 then (fl : ℚ) / 100 else ((fl + 1 : ℤ) : ℚ) / 100

/-- Truthiness of a nullable boolean column: `NULL` and `False` are falsy. -/

def truthy (b : Option Bool) : Bool := b.getD false

/-- Row of the `goals` table (fields relevant to the claims).  The
`deleted` soft-delete column is nullable (routers test
`or_(deleted == False, deleted.is_(None))`). -/

structure Goal where
  id : ℕ
  person_id : ℕ
  target_value : Option ℚ
  current_value : ℚ
  percentage : ℚ
  status : String
  deleted : Option Bool
deriving Repr, DecidableEq

/-- Row of the `tasks` table (fields relevant to the claims). -/

structure Task where
  id : ℕ
  goal_id : ℕ
  completed : Bool
  priority : String
  deleted : Option Bool
deriving Repr, DecidableEq

/-- Row of the `sub_tasks` table. -/

structure SubTask where
  id : ℕ
  task_id : ℕ
  completed : Bool
deriving Repr, DecidableEq

/-- The goal/task part of the database. -/

structure GTDb where
  goals : List Goal
  tasks : List Task
  subtasks : List SubTask
deriving Repr, DecidableEq

/-- `ProgressService.calculate_task_completion_percentage` (the `simple`
method): count the goal's tasks and its completed tasks — the SQL filters
are `Task.goal_id == goal_id` and (for the numerator) `Task.completed ==
True`; there is no filter on the `deleted` column — and return
`round((completed / total) * 100, 2)`, or `0.0` when the goal has no
tasks. -/

def calculate_task_completion_percentage (goal_id : ℕ) (db : GTDb) : ℚ :=
  let total_tasks := (db.tasks.filter (fun t => t.goal_id == goal_id)).length
  if total_tasks = 0 then 0
  else
    let completed_tasks :=
      (db.tasks.filter (fun t => t.goal_id == goal_id && t.completed)).length
    round2 (((completed_tasks : ℚ) / (total_tasks : ℚ)) * 100)

/-- `db.query(models.Goal).filter(models.Goal.id == goal_id).first()`. -/

def findGoal (goal_id : ℕ) (db : GTDb) : Option Goal :=
  db.goals.find? (fun g => g.id == goal_id)

/-- `ProgressService.calculate_hybrid_percentage`: fetch the goal (missing
goal gives `0.0`); if `goal.target_value and goal.target_value > 0`
(Python truthiness: non-`NULL` and non-zero, then `> 0`) return
`round(min(current_value / target_value * 100, 100.0), 2)`; otherwise
fall back to `calculate_task_completion_percentage`. -/

def calculate_hybrid_percentage (goal_id : ℕ) (db : GTDb) : ℚ :=
  match findGoal goal_id db with
  | none => 0
  | some goal =>
    match goal.target_value with
    | some tv =>
      if tv ≠ 0 ∧ 0 < tv then
        round2 (min (goal.current_value / tv * 100) 100)
      else calculate_task_completion_percentage goal_id db
    | none => calculate_task_completion_percentage goal_id db

/-- Modelled from the spec: the `simple` percentage as the specification
describes it, counting only **non-deleted** tasks of the goal.  This is
the spec-side definition used to compare against
`calculate_task_completion_percentage` (which does not consult the
`deleted` flag). -/

def simple_percentage_per_spec (goal_id : ℕ) (db : GTDb) : ℚ :=
  let live := db.tasks.filter (fun t => t.goal_id == goal_id && !(truthy t.deleted))
  if live.length = 0 then 0
  else round2 ((((live.filter (fun t => t.completed)).length : ℚ) / (live.length : ℚ)) * 100)

/-- Goal from the spec's worked scenario: `target_value = 6.5`,
`current_value = 5.5`. -/

def c1Goal : Goal :=
  { id := 1, person_id := 1, target_value := some (13/2), current_value := 11/2,
    percentage := 0, status := "active", deleted := none }

/-- A one-goal database for the C1 witness. -/

def c1Db : GTDb := { goals := [c1Goal], tasks := [], subtasks := [] }

/-! ### C2: simple percentage and the soft-delete flag -/

/-- Counterexample input for C2: goal 1 has one soft-deleted completed
task and one live incomplete task. -/

def c2Db : GTDb :=
  { goals := [{ id := 1, person_id := 1, target_value := none, current_value := 0,
                percentage := 0, status := "active", deleted := none }],
    tasks := [{ id := 1, goal_id := 1, completed := true, priority := "medium",
                deleted := some true },
              { id := 2, goal_id := 1, completed := false, priority := "medium",
                deleted := none }],
    subtasks := [] }

/-! ### Job / SalaryMonth generator (`JobService.generate_salary_months`)

Calendar months are indexed linearly: month `m` of year `y` (with
`1 ≤ m ≤ 12`) has index `12 * y + (m - 1)`; the Python loop's
`current <= end` date comparison and "advance one month" step become
`≤` and `+ 1` on indices, and `current.strftime("%Y-%m")` becomes
`monthStr`. -/

/-- Zero-pad a numeral to two digits, as `strftime`'s `%m` does. -/

def pad2 (n : ℕ) : String := if n < 10 then "0" ++ toString n else toString n

/-- `current.strftime("%Y-%m")` for the month with linear index `idx`. -/

def monthStr (idx : ℕ) : String := toString (idx / 12) ++ "-" ++ pad2 (idx % 12 + 1)

/-- Row of the `salary_months` table (fields written by the generator). -/

structure SalaryMonth where
  job_id : ℕ
  person_id : ℕ
  month : String
  salary_amount : ℚ
  deductions : ℚ
  net_amount : ℚ
  remaining_amount : ℚ
deriving Repr, DecidableEq

/-- Row of the `jobs` table (fields read by the generator): `start_month`
is the linear index of `job.start_date`'s month and `end_month` that of
`job.end_date`'s month when `end_date` is set. -/

structure Job where
  id : ℕ
  person_id : ℕ
  salary : ℚ
  start_month : ℕ
  end_month : Option ℕ
deriving Repr, DecidableEq

/-- The `while current <= end:` loop of `generate_salary_months`.  `fuel`
only bounds the number of iterations (the caller passes exactly
`fin + 1 - cur`, enough for the whole range); the loop guard is the
source's `cur ≤ fin`.  Each month is either skipped (its string is
already in `existing`) or a new `SalaryMonth` row is built with
`salary_amount = job.salary`, `deductions = 0.0`,
`net_amount = remaining_amount = job.salary`. -/

def genLoop (job : Job) (existing : List String) :
    ℕ → ℕ → ℕ → List SalaryMonth × List String
  | 0, _, _ => ([], [])
  | fuel + 1, cur, fin =>
    if cur ≤ fin then
      let ms := monthStr cur
      let rest := genLoop job existing fuel (cur + 1) fin
      if ms ∈ existing then (rest.1, ms :: rest.2)
      else ({ job_id := job.id, person_id := job.person_id, month := ms,
              salary_amount := job.salary, deductions := 0,
              net_amount := job.salary, remaining_amount := job.salary } :: rest.1,
            rest.2)
    else ([], [])

/-- `JobService.generate_salary_months`: iterate from the month of
`job.start_date` to the month of `job.end_date` (or of `date.today()`,
passed here as `todayIdx`, when `end_date` is `NULL`), returning the
`(created, skipped)` pair.  `existing` is the set of `month` strings of
the `SalaryMonth` rows already stored for this job. -/

def generate_salary_months (job : Job) (todayIdx : ℕ) (existing : List String) :
    List SalaryMonth × List String :=
  let start := job.start_month
  let fin := job.end_month.getD todayIdx
  genLoop job existing (fin + 1 - start) start fin

/-- Concrete job for the C4 counterexample and witnesses: salary `100`,
employed for the single month 2026-01 (index `12 * 2026 = 24312`). -/

def c4Job : Job :=
  { id := 1, person_id := 1, salary := 100, start_month := 24312,
    end_month := some 24312 }

/-- The single row `generate_salary_months` creates for `c4Job` on an
empty table. -/

def c4Row : SalaryMonth :=
  { job_id := 1, person_id := 1, month := "2026-01", salary_amount := 100,
    deductions := 0, net_amount := 100, remaining_amount := 100 }

/-! ### Budget recompute (`budgets._update_budget_totals`) -/

/-- A `datetime.date`, compared lexicographically as in Python. -/

structure PyDate where
  year : ℕ
  month : ℕ
  day : ℕ
deriving Repr, DecidableEq

/-- Python `a <= b` on dates. -/

def dateLe (a b : PyDate) : Bool :=
  a.year < b.year ||
    (a.year == b.year && (a.month < b.month ||
      (a.month == b.month && a.day ≤ b.day)))

/-- Python `a < b` on dates. -/

def dateLt (a b : PyDate) : Bool :=
  a.year < b.year ||
    (a.year == b.year && (a.month < b.month ||
      (a.month == b.month && a.day < b.day)))

/-- Row of the `expenses` table (fields relevant to the claims). -/

structure Expense where
  id : ℕ
  person_id : ℕ
  salary_month_id : Option ℕ
  category : String
  amount : ℚ
  date : PyDate
deriving Repr, DecidableEq

/-- Row of the `budgets` table. -/

structure Budget where
  id : ℕ
  person_id : ℕ
  period : String
  period_type : String
  category : String
  allocated_amount : ℚ
  spent_amount : ℚ
  remaining_amount : ℚ
deriving Repr, DecidableEq

/-- Python `str.split(sep)` for a single-character separator, on the
character list of the string. -/

def splitCharList (sep : Char) : List Char → List (List Char)
  | [] => [[]]
  | c :: cs =>
    if c = sep then [] :: splitCharList sep cs
    else
      match splitCharList sep cs with
      | [] => [[c]]
      | g :: gs => (c :: g) :: gs

/-- Python `int(s)` on a decimal digit string: defined (as used here) when
the string is non-empty and all digits; leading zeros are accepted. -/

def digitsToNat : List Char → Option ℕ
  | [] => none
  | cs =>
    if cs.all Char.isDigit then
      some (cs.foldl (fun n c => 10 * n + (c.toNat - '0'.toNat)) 0)
    else none

/-- `year, month = map(int, budget.period.split('-'))`: succeeds exactly
when the period splits into two `int`-convertible parts (otherwise the
Python raises and the request fails). -/

def parsePeriod (s : String) : Option (ℕ × ℕ) :=
  match (splitCharList '-' s.toList).map digitsToNat with
  | [some y, some m] => some (y, m)
  | _ => none

/-- `budgets._update_budget_totals`, given the fetched budget row and the
expense table: for a `"monthly"` budget, parse the period (a parse
failure models the uncaught `ValueError`, giving `none`), derive
`[date(y, m, 1), date of the first of the next month)`, sum
`Expense.amount` over the owner's expenses of the same category with
`start <= date < end`, and set `spent_amount` to the sum and
`remaining_amount` to `allocated_amount - spent`.  For any other
`period_type` the function returns early, leaving the budget untouched. -/

def _update_budget_totals (b : Budget) (expenses : List Expense) : Option Budget :=
  if b.period_type == "monthly" then
    match parsePeriod b.period with
    | none => none
    | some (year, month) =>
      let start : PyDate := ⟨year, month, 1⟩
      let stop : PyDate := if month == 12 then ⟨year + 1, 1, 1⟩ else ⟨year, month + 1, 1⟩
      let es := expenses.filter (fun e =>
        e.person_id == b.person_id && e.category == b.category &&
        dateLe start e.date && dateLt e.date stop)
      let spent := (es.map Expense.amount).sum
      some { b with spent_amount := spent,
                    remaining_amount := b.allocated_amount - spent }
  else some b

/-- The sum of `Expense.amount` over the budget owner's expenses of the
budget's category with a date in the calendar-month window of month `m`
of year `y` — the sum `_update_budget_totals` computes. -/

def monthlySpent (b : Budget) (expenses : List Expense) (y m : ℕ) : ℚ :=
  ((expenses.filter (fun e =>
      e.person_id == b.person_id && e.category == b.category &&
      dateLe ⟨y, m, 1⟩ e.date &&
      dateLt e.date (if m == 12 then ⟨y + 1, 1, 1⟩ else ⟨y, m + 1, 1⟩))).map
    Expense.amount).sum

/-- Budget for the C5 witness: January 2026, category `food`, `100`
allocated. -/

def c5Budget : Budget :=
  { id := 1, person_id := 1, period := "2026-01", period_type := "monthly",
    category := "food", allocated_amount := 100, spent_amount := 0,
    remaining_amount := 0 }

/-- Expenses for the C5 witness: a matching January food expense of `30`,
a February one of `99` (outside the window) and a January transport one
of `7` (wrong category). -/

def c5Expenses : List Expense :=
  [{ id := 1, person_id := 1, salary_month_id := none, category := "food",
     amount := 30, date := ⟨2026, 1, 15⟩ },
   { id := 2, person_id := 1, salary_month_id := none, category := "food",
     amount := 99, date := ⟨2026, 2, 1⟩ },
   { id := 3, person_id := 1, salary_month_id := none, category := "transport",
     amount := 7, date := ⟨2026, 1, 10⟩ }]

/-- Weekly budget for the C7 witness. -/

def c7Budget : Budget :=
  { id := 2, person_id := 1, period := "2026-03", period_type := "weekly",
    category := "food", allocated_amount := 50, spent_amount := 5,
    remaining_amount := 45 }

/-! ### Savings (`routers/savings.py`) -/

/-- Row of the `savings` table (fields relevant to the claims). -/

structure Saving where
  id : ℕ
  person_id : ℕ
  current_balance : ℚ
deriving Repr, DecidableEq

/-- Row of the `saving_transactions` table. -/

structure SavingTransaction where
  id : ℕ
  saving_id : ℕ
  transaction_type : String
  amount : ℚ
  transaction_date : PyDate
  balance_before : ℚ
  balance_after : ℚ
deriving Repr, DecidableEq

/-- The savings part of the database; `next_tx_id` models the
autoincrement primary key of `saving_transactions`. -/

structure SavingsDb where
  savings : List Saving
  transactions : List SavingTransaction
  next_tx_id : ℕ
deriving Repr, DecidableEq

/-- HTTP error taxonomy raised by the handlers modelled here. -/

inductive ApiError where
  | notFound
  | badRequest
deriving Repr, DecidableEq

/-- The HTTP status code of an `ApiError`. -/

def ApiError.statusCode : ApiError → ℕ
  | .notFound => 404
  | .badRequest => 400

/-- The ownership lookup
`db.query(Saving).filter(Saving.id == saving_id, Saving.person_id == current_user.id).first()`. -/

def findSaving (db : SavingsDb) (personId savingId : ℕ) : Option Saving :=
  db.savings.find? (fun s => s.id == savingId && s.person_id == personId)

/-- `withdraw_from_saving`: 404 when the ownership lookup fails; 400
(insufficient balance) when `amount > saving.current_balance`, leaving
the database untouched; otherwise snapshot
`balance_before = current_balance`, `balance_after = balance_before -
amount`, append the `"withdrawal"` transaction row and set the account's
balance to `balance_after`.  (FastAPI validates `amount > 0` before the
handler runs; primary keys are unique, so updating the row with the
fetched saving's id updates exactly the fetched row.) -/

def withdraw_from_saving (db : SavingsDb) (personId savingId : ℕ) (amount : ℚ)
    (tdate : PyDate) : Except ApiError SavingTransaction × SavingsDb :=
  match findSaving db personId savingId with
  | none => (.error .notFound, db)
  | some s =>
    if amount > s.current_balance then (.error .badRequest, db)
    else
      let t : SavingTransaction :=
        { id := db.next_tx_id, saving_id := savingId,
          transaction_type := "withdrawal", amount := amount,
          transaction_date := tdate, balance_before := s.current_balance,
          balance_after := s.current_balance - amount }
      (.ok t,
        { savings := db.savings.map (fun x =>
            if x.id == s.id then { x with current_balance := s.current_balance - amount } else x),
          transactions := db.transactions ++ [t],
          next_tx_id := db.next_tx_id + 1 })

/-- `deposit_to_saving`: 404 when the ownership lookup fails; otherwise
snapshot `balance_before`, set `balance_after = balance_before + amount`,
append the `"deposit"` row and update the account balance. -/

def deposit_to_saving (db : SavingsDb) (personId savingId : ℕ) (amount : ℚ)
    (tdate : PyDate) : Except ApiError SavingTransaction × SavingsDb :=
  match findSaving db personId savingId with
  | none => (.error .notFound, db)
  | some s =>
    let t : SavingTransaction :=
      { id := db.next_tx_id, saving_id := savingId,
        transaction_type := "deposit", amount := amount,
        transaction_date := tdate, balance_before := s.current_balance,
        balance_after := s.current_balance + amount }
    (.ok t,
      { savings := db.savings.map (fun x =>
          if x.id == s.id then { x with current_balance := s.current_balance + amount } else x),
        transactions := db.transactions ++ [t],
        next_tx_id := db.next_tx_id + 1 })

/-- `delete_saving_transaction`: 404 on a failed saving or transaction
lookup; otherwise reverse the transaction's effect on the balance
(`deposit`/`interest`: subtract the amount, `withdrawal`: add it back,
anything else: leave the balance) and delete the row. -/

def delete_saving_transaction (db : SavingsDb) (personId savingId txId : ℕ) :
    Except ApiError String × SavingsDb :=
  match findSaving db personId savingId with
  | none => (.error .notFound, db)
  | some s =>
    match db.transactions.find? (fun t => t.id == txId && t.saving_id == savingId) with
    | none => (.error .notFound, db)
    | some t =>
      let newBal :=
        if t.transaction_type == "deposit" || t.transaction_type == "interest" then
          s.current_balance - t.amount
        else if t.transaction_type == "withdrawal" then
          s.current_balance + t.amount
        else s.current_balance
      (.ok "Transaction deleted",
        { savings := db.savings.map (fun x =>
            if x.id == s.id then { x with current_balance := newBal } else x),
          transactions := db.transactions.filter (fun x => !(x.id == txId)),
          next_tx_id := db.next_tx_id })

/-- The transaction row built by the withdraw handler. -/

def withdrawTx (db : SavingsDb) (savingId : ℕ) (amount : ℚ) (tdate : PyDate)
    (s : Saving) : SavingTransaction :=
  { id := db.next_tx_id, saving_id := savingId, transaction_type := "withdrawal",
    amount := amount, transaction_date := tdate,
    balance_before := s.current_balance,
    balance_after := s.current_balance - amount }

/-- The transaction row built by the deposit handler. -/

def depositTx (db : SavingsDb) (savingId : ℕ) (amount : ℚ) (tdate : PyDate)
    (s : Saving) : SavingTransaction :=
  { id := db.next_tx_id, saving_id := savingId, transaction_type := "deposit",
    amount := amount, transaction_date := tdate,
    balance_before := s.current_balance,
    balance_after := s.current_balance + amount }

/-- The database state after a successful deposit on the fetched row `s`. -/

def depositDb (db : SavingsDb) (savingId : ℕ) (amount : ℚ) (tdate : PyDate)
    (s : Saving) : SavingsDb :=
  { savings := db.savings.map (fun x =>
      if x.id == s.id then { x with current_balance := s.current_balance + amount } else x),
    transactions := db.transactions ++ [depositTx db savingId amount tdate s],
    next_tx_id := db.next_tx_id + 1 }

/-- Saving account shared by the C6 and C9 witnesses: balance
`5_000_000`, as in the spec's worked scenario. -/

def savAcct : Saving := { id := 1, person_id := 1, current_balance := 5000000 }

/-- Savings database for the C6 and C9 witnesses. -/

def savDb : SavingsDb := { savings := [savAcct], transactions := [], next_tx_id := 1 }

/-! ### Login lockout (`routers/auth.py`, `login`)

Time is measured in minutes as an integer `now`; `verify_password` is an
external hash comparison, modelled by the oracle bit `pwOk` — the claim
that a locked account's password is never compared is expressed by the
lock branch being independent of `pwOk`. -/

/-- Row of the `person` table (fields the login flow reads/writes).
`has_password` is the truthiness of the nullable `hashed_password`
column. -/

structure PersonAuth where
  failed_login_attempts : ℕ
  locked_until : Option ℤ
  auth_provider : String
  has_password : Bool
  last_login : Option ℤ
deriving Repr, DecidableEq

/-- Outcome of a login attempt (HTTP 200 / 401 / 403 / 400). -/

inductive LoginResult where
  | success
  | unauthorized
  | forbidden
  | badRequest
deriving Repr, DecidableEq

/-- The fixed lockout cooldown, `timedelta(minutes=30)`. -/

def lockoutMinutes : ℤ := 30

/-- `user.locked_until and user.locked_until > datetime.utcnow()`. -/

def isLocked (u : PersonAuth) (now : ℤ) : Bool :=
  match u.locked_until with
  | some lu => decide (now < lu)
  | none => false

/-- The `login` handler after the user row was found, for one attempt at
time `now` with password-comparison outcome `pwOk`: locked accounts get
403 before any password comparison; Google-only accounts without a
password get 400; a failed comparison increments
`failed_login_attempts` and sets `locked_until = now + 30` once the
counter has reached 5, then returns 401; a successful comparison resets
the counter, clears the lock, stamps `last_login` and returns the token
(200). -/

def login (u : PersonAuth) (pwOk : Bool) (now : ℤ) : LoginResult × PersonAuth :=
  if isLocked u now then (.forbidden, u)
  else if u.auth_provider == "google" && !u.has_password then (.badRequest, u)
  else if !pwOk then
    let n := u.failed_login_attempts + 1
    (.unauthorized,
      { u with failed_login_attempts := n,
               locked_until := if 5 ≤ n then some (now + lockoutMinutes)
                               else u.locked_until })
  else
    (.success,
      { u with failed_login_attempts := 0, locked_until := none,
               last_login := some now })

/-- A user whose account is locked until minute `10`. -/

def lockedUser : PersonAuth :=
  { failed_login_attempts := 5, locked_until := some 10,
    auth_provider := "email", has_password := true, last_login := none }

/-- A user with 4 consecutive failures and no lock. -/

def user4Fails : PersonAuth :=
  { failed_login_attempts := 4, locked_until := none,
    auth_provider := "email", has_password := true, last_login := none }

/-! ### Goal soft-delete toggle (`routers/goals.py`, `delete_goal`) -/

/-- `DELETE /api/goals/{goal_id}`: fetch the goal by id alone (no
`not_deleted` filter on this endpoint); missing goal gives 404; a found
goal has its `deleted` flag toggled — truthy (`True`) becomes `False`,
falsy (`False` or `NULL`) becomes `True` — and the same message is
returned either way.  No row is removed. -/

def delete_goal (db : GTDb) (goal_id : ℕ) : Except ApiError String × GTDb :=
  match db.goals.find? (fun g => g.id == goal_id) with
  | none => (.error .notFound, db)
  | some g =>
    let newFlag : Option Bool := if truthy g.deleted then some false else some true
    (.ok "Goal deleted",
     { db with goals := db.goals.map (fun x =>
         if x.id == g.id then { x with deleted := newFlag } else x) })

/-- A live (never-deleted, `NULL` flag) goal for the C10 witness. -/

def c10LiveGoal : Goal :=
  { id := 7, person_id := 1, target_value := none, current_value := 0,
    percentage := 0, status := "active", deleted := none }

/-- An already soft-deleted goal for the C10 witness. -/

def c10DeletedGoal : Goal :=
  { id := 8, person_id := 1, target_value := none, current_value := 0,
    percentage := 0, status := "active", deleted := some true }

/-- Database for the C10 witness: both goals plus one task. -/

def c10Db : GTDb :=
  { goals := [c10LiveGoal, c10DeletedGoal],
    tasks := [{ id := 1, goal_id := 7, completed := false, priority := "low",
                deleted := none }],
    subtasks := [] }

/-! ### Helper lemmas -/

/-- Chaining two filters counts the same rows as filtering on the
conjunction of the predicates. -/

lemma length_filter_and {α : Type} (p q : α → Bool) (l : List α) :
    ((l.filter p).filter q).length = (l.filter (fun a => p a && q a)).length := by
  have hcomm : (fun a => q a && p a) = (fun a => p a && q a) :=
    funext fun a => Bool.and_comm (q a) (p a)
  rw [List.filter_filter, hcomm]

/-- Filtering after a row-wise update that does not change the filtered
fields counts the same rows. -/

lemma length_filter_map_eq {α : Type} (u : α → α) (p : α → Bool)
    (hp : ∀ x, p (u x) = p x) (l : List α) :
    ((l.map u).filter p).length = (l.filter p).length := by
  induction l with
  | nil => rfl
  | cons a t ih =>
    by_cases h : p a <;> simp [List.filter, hp, h, ih]

/-- `find?` commutes with a row-wise update that does not change the
fields the search predicate reads. -/

lemma find?_map_pred_invariant {α : Type} (u : α → α) (p : α → Bool)
    (hp : ∀ x, p (u x) = p x) (l : List α) :
    (l.map u).find? p = (l.find? p).map u := by
  induction l with
  | nil => rfl
  | cons a t ih =>
    by_cases h : p a
    · simp [List.find?, hp, h]
    · simp only [List.map_cons, List.find?]
      rw [hp a]
      simp [h, ih]

/-! ### C1: hybrid percentage -/

/-- C1: for every goal whose `target_value` is set and strictly positive,
`calculate_hybrid_percentage` returns
`round(min(current_value / target_value * 100, 100), 2)` — and this holds
for any task/subtask state whatsoever (first conjunct quantifies over the
task tables); for a goal without such a `target_value` it falls back to
`calculate_task_completion_percentage` (the simple method). -/

theorem calculate_hybrid_percentage_spec (db : GTDb) (gid : ℕ) (g : Goal)
    (hfind : findGoal gid db = some g) :
    (∀ tv : ℚ, g.target_value = some tv → 0 < tv →
      ∀ (tasks' : List Task) (subtasks' : List SubTask),
        calculate_hybrid_percentage gid ⟨db.goals, tasks', subtasks'⟩ =
          round2 (min (g.current_value / tv * 100) 100)) ∧
    ((∀ tv : ℚ, g.target_value = some tv → tv ≤ 0) →
      calculate_hybrid_percentage gid db = calculate_task_completion_percentage gid db) := by
  constructor
  · intro tv htv hpos tasks' subtasks'
    have hf : findGoal gid ⟨db.goals, tasks', subtasks'⟩ = some g := hfind
    simp only [calculate_hybrid_percentage, hf, htv]
    rw [if_pos ⟨ne_of_gt hpos, hpos⟩]
  · intro hno
    simp only [calculate_hybrid_percentage, hfind]
    cases htv : g.target_value with
    | none => rfl
    | some tv =>
      have hle := hno tv htv
      have hcond : ¬(tv ≠ 0 ∧ 0 < tv) := fun h => absurd h.2 (not_lt.mpr hle)
      simp [hcond]

/-- C1 witness: concrete goal with `target_value = 6.5`,
`current_value = 5.5` evaluates to `84.62`. -/

theorem calculate_hybrid_percentage_spec_witness :
    calculate_hybrid_percentage 1 c1Db = round2 (min ((11/2 : ℚ) / (13/2) * 100) 100) ∧
    round2 (min ((11/2 : ℚ) / (13/2) * 100) 100) = 4231/50 := by
  constructor
  · have h := (calculate_hybrid_percentage_spec c1Db 1 c1Goal rfl).1 (13/2) rfl
      (by norm_num) c1Db.tasks c1Db.subtasks
    simpa using h
  · simp only [round2]
    norm_num [min_def]

/-- C2 counterexample: on `c2Db` the code counts the soft-deleted
completed task and returns `50`, while the claimed
non-deleted-rows-only percentage is `0`: soft-deleted tasks are NOT
excluded by `calculate_task_completion_percentage`. -/

theorem calculate_task_completion_percentage_counterexample :
    calculate_task_completion_percentage 1 c2Db = 50 ∧
    simple_percentage_per_spec 1 c2Db = 0 ∧ (50 : ℚ) ≠ 0 := by
  refine ⟨?_, ?_, by norm_num⟩
  · simp only [calculate_task_completion_percentage, c2Db, List.filter, round2]
    norm_num
  · simp only [simple_percentage_per_spec, c2Db, truthy, List.filter, round2]
    norm_num

/-- C2 (amended): the simple method returns `round(C/N*100, 2)` where `N`
counts ALL task rows of the goal and `C` the completed ones among them —
the `deleted` flag is not consulted (second conjunct: rewriting every
task's `deleted` flag arbitrarily never changes the result) — and `0`
when the goal has no task rows at all. -/

theorem calculate_task_completion_percentage_amended (db : GTDb) (gid : ℕ) :
    (calculate_task_completion_percentage gid db =
      if (db.tasks.filter (fun t => t.goal_id == gid)).length = 0 then 0
      else round2 (((((db.tasks.filter (fun t => t.goal_id == gid)).filter
            (fun t => t.completed)).length : ℚ) /
          ((db.tasks.filter (fun t => t.goal_id == gid)).length : ℚ)) * 100)) ∧
    (∀ f : Task → Option Bool,
      calculate_task_completion_percentage gid
          { db with tasks := db.tasks.map (fun t => { t with deleted := f t }) } =
        calculate_task_completion_percentage gid db) := by
  constructor
  · simp only [calculate_task_completion_percentage]
    rw [length_filter_and (fun t : Task => t.goal_id == gid)
          (fun t : Task => t.completed) db.tasks]
  · intro f
    simp only [calculate_task_completion_percentage]
    rw [length_filter_map_eq (fun t : Task => ({ t with deleted := f t } : Task))
          (fun t : Task => t.goal_id == gid) (fun x => rfl) db.tasks,
        length_filter_map_eq (fun t : Task => ({ t with deleted := f t } : Task))
          (fun t : Task => t.goal_id == gid && t.completed) (fun x => rfl) db.tasks]

/-- Each loop iteration appends to exactly one of the two result lists, so
with exact fuel the lengths sum to the number of iterations. -/

lemma genLoop_length (job : Job) (existing : List String) (fin : ℕ) :
    ∀ fuel cur, fin + 1 - cur = fuel →
      ((genLoop job existing fuel cur fin).1.length +
        (genLoop job existing fuel cur fin).2.length = fuel) := by
  intro fuel
  induction fuel with
  | zero => intro cur _; simp [genLoop]
  | succ n ih =>
    intro cur hfuel
    have hle : cur ≤ fin := by omega
    have hnext : fin + 1 - (cur + 1) = n := by omega
    have hrec := ih (cur + 1) hnext
    simp only [genLoop, if_pos hle]
    by_cases hmem : monthStr cur ∈ existing <;> simp [hmem] <;> omega

/-- Every month of the iterated range ends up either in `existing` or
among the month strings of the created rows. -/

lemma genLoop_covers (job : Job) (existing : List String) (fin : ℕ) :
    ∀ fuel cur m, cur ≤ m → m ≤ fin → fin + 1 - cur ≤ fuel →
      monthStr m ∈ existing ∨
        monthStr m ∈ (genLoop job existing fuel cur fin).1.map SalaryMonth.month := by
  intro fuel
  induction fuel with
  | zero => intro cur m h1 h2 h3; omega
  | succ n ih =>
    intro cur m hcm hmf hfuel
    have hle : cur ≤ fin := le_trans hcm hmf
    simp only [genLoop, if_pos hle]
    by_cases heq : m = cur
    · subst heq
      by_cases hmem : monthStr m ∈ existing
      · exact Or.inl hmem
      · right
        rw [if_neg hmem]
        exact List.mem_cons_self _ _
    · have hcm' : cur + 1 ≤ m := by omega
      have hrec := ih (cur + 1) m hcm' hmf (by omega)
      rcases hrec with h | h
      · exact Or.inl h
      · right
        by_cases hmem : monthStr cur ∈ existing
        · rw [if_pos hmem]; exact h
        · rw [if_neg hmem]; exact List.mem_cons_of_mem _ h

/-- If every month of the range is already recorded, the loop creates
nothing (every iteration takes the skip branch). -/

lemma genLoop_skips_all (job : Job) (existing : List String) (fin : ℕ) :
    ∀ fuel cur, (∀ m, cur ≤ m → m ≤ fin → monthStr m ∈ existing) →
      (genLoop job existing fuel cur fin).1 = [] := by
  intro fuel
  induction fuel with
  | zero => intro cur _; simp [genLoop]
  | succ n ih =>
    intro cur hall
    by_cases hle : cur ≤ fin
    · have hmem : monthStr cur ∈ existing := hall cur le_rfl hle
      have hrec := ih (cur + 1) (fun m h1 h2 => hall m (by omega) h2)
      simp [genLoop, hle, hmem, hrec]
    · simp [genLoop, hle]

/-- Every month of the iterated range whose string is already recorded
lands in the skipped list (the loop's skip branch appends it). -/

lemma genLoop_mem_skipped (job : Job) (existing : List String) (fin : ℕ) :
    ∀ fuel cur m, cur ≤ m → m ≤ fin → fin + 1 - cur ≤ fuel →
      monthStr m ∈ existing →
      monthStr m ∈ (genLoop job existing fuel cur fin).2 := by
  intro fuel
  induction fuel with
  | zero => intro cur m h1 h2 h3 _; omega
  | succ n ih =>
    intro cur m hcm hmf hfuel hmem
    have hle : cur ≤ fin := le_trans hcm hmf
    simp only [genLoop, if_pos hle]
    by_cases heq : m = cur
    · subst heq
      rw [if_pos hmem]
      exact List.mem_cons_self _ _
    · have hcm' : cur + 1 ≤ m := by omega
      have hrec := ih (cur + 1) m hcm' hmf (by omega) hmem
      by_cases hcur : monthStr cur ∈ existing
      · rw [if_pos hcur]
        exact List.mem_cons_of_mem _ hrec
      · rw [if_neg hcur]
        exact hrec

/-- C3: `generate_salary_months` is idempotent — running it again on the
same job after a first run (the stored month set having grown by exactly
the first run's created rows) creates zero new rows — and on every run
(arbitrary pre-existing month set) `len(created) + len(skipped)` is the
number of calendar months from the month of `job.start_date` through the
month of `job.end_date` (or of today when `end_date` is unset),
inclusive (i.e. `fin + 1 - start` as a truncated `ℕ` subtraction, which
is `0` for an empty range). -/

theorem generate_salary_months_idempotent (job : Job) (todayIdx : ℕ)
    (existing : List String) :
    (generate_salary_months job todayIdx
        (existing ++ (generate_salary_months job todayIdx existing).1.map
          SalaryMonth.month)).1 = [] ∧
    (∀ ex : List String,
      (generate_salary_months job todayIdx ex).1.length +
        (generate_salary_months job todayIdx ex).2.length =
      job.end_month.getD todayIdx + 1 - job.start_month) := by
  constructor
  · apply genLoop_skips_all
    intro m h1 h2
    have hcov := genLoop_covers job existing (job.end_month.getD todayIdx)
      (job.end_month.getD todayIdx + 1 - job.start_month) job.start_month m h1 h2 le_rfl
    rcases hcov with h | h
    · exact List.mem_append_left _ h
    · exact List.mem_append_right _ h
  · intro ex
    exact genLoop_length job ex (job.end_month.getD todayIdx) _ job.start_month rfl

/-- C4 counterexample: the single row created for `c4Job` (no
pre-existing rows) has `salary_amount = job.salary = 100`, not `0` as
claimed: the claim "every newly created record has `salary_amount = 0`"
is false at this input. -/

theorem generate_salary_months_fields_counterexample :
    ¬ (∀ r ∈ (generate_salary_months c4Job 24312 []).1, r.salary_amount = 0) := by
  decide

/-- C4 (amended): every `SalaryMonth` row newly created by
`generate_salary_months` has `salary_amount = job.salary` (the gross
salary, not `0`), `deductions = 0`, `net_amount = job.salary` and
`remaining_amount = job.salary`, and its month was not previously
recorded; a month for which a record already exists for the job is
skipped without error: every already-recorded month of the iterated
range lands in the skipped list, every skipped month string was already
in the stored set, and no row is created for a recorded month. -/

theorem generate_salary_months_created_fields (job : Job) (todayIdx : ℕ)
    (existing : List String) :
    (∀ r ∈ (generate_salary_months job todayIdx existing).1,
      r.job_id = job.id ∧ r.person_id = job.person_id ∧
      r.salary_amount = job.salary ∧ r.deductions = 0 ∧
      r.net_amount = job.salary ∧ r.remaining_amount = job.salary ∧
      r.month ∉ existing) ∧
    (∀ m ∈ (generate_salary_months job todayIdx existing).2, m ∈ existing) ∧
    (∀ m : ℕ, job.start_month ≤ m → m ≤ job.end_month.getD todayIdx →
      monthStr m ∈ existing →
      monthStr m ∈ (generate_salary_months job todayIdx existing).2) := by
  have key : ∀ fuel cur fin,
      (∀ r ∈ (genLoop job existing fuel cur fin).1,
        r.job_id = job.id ∧ r.person_id = job.person_id ∧
        r.salary_amount = job.salary ∧ r.deductions = 0 ∧
        r.net_amount = job.salary ∧ r.remaining_amount = job.salary ∧
        r.month ∉ existing) ∧
      (∀ m ∈ (genLoop job existing fuel cur fin).2, m ∈ existing) := by
    intro fuel
    induction fuel with
    | zero => intro cur fin; simp [genLoop]
    | succ n ih =>
      intro cur fin
      by_cases hle : cur ≤ fin
      · have hrec := ih (cur + 1) fin
        by_cases hmem : monthStr cur ∈ existing
        · simp only [genLoop, if_pos hle, if_pos hmem]
          exact ⟨hrec.1, by
            intro m hm
            rcases List.mem_cons.mp hm with h | h
            · exact h ▸ hmem
            · exact hrec.2 m h⟩
        · simp only [genLoop, if_pos hle, if_neg hmem]
          refine ⟨?_, hrec.2⟩
          intro r hr
          rcases List.mem_cons.mp hr with h | h
          · subst h
            exact ⟨rfl, rfl, rfl, rfl, rfl, rfl, hmem⟩
          · exact hrec.1 r h
      · simp [genLoop, hle]
  refine ⟨(key _ job.start_month (job.end_month.getD todayIdx)).1,
    (key _ job.start_month (job.end_month.getD todayIdx)).2, ?_⟩
  intro m h1 h2 hmem
  exact genLoop_mem_skipped job existing (job.end_month.getD todayIdx)
    (job.end_month.getD todayIdx + 1 - job.start_month) job.start_month m
    h1 h2 le_rfl hmem

/-- C4 witness: applying the amended theorem to `c4Job`'s single created
row: its fields are `salary_amount = 100`, `deductions = 0`,
`net_amount = remaining_amount = 100`, exactly `job.salary = 100`; and
on a rerun with `"2026-01"` already recorded, that month lands in the
skipped list. -/

theorem generate_salary_months_created_fields_witness :
    (c4Row.salary_amount = c4Job.salary ∧ c4Row.deductions = 0 ∧
      c4Row.net_amount = c4Job.salary ∧ c4Row.remaining_amount = c4Job.salary) ∧
    "2026-01" ∈ (generate_salary_months c4Job 24312 ["2026-01"]).2 := by
  have hmem : c4Row ∈ (generate_salary_months c4Job 24312 []).1 := by decide
  have h := (generate_salary_months_created_fields c4Job 24312 []).1 _ hmem
  have hskip := (generate_salary_months_created_fields c4Job 24312 ["2026-01"]).2.2
    24312 (by decide) (by decide) (by decide)
  have hms : monthStr 24312 = "2026-01" := by decide
  exact ⟨⟨h.2.2.1, h.2.2.2.1, h.2.2.2.2.1, h.2.2.2.2.2.1⟩, hms ▸ hskip⟩

/-- C5: after a recompute of a monthly budget (well-formed period),
`spent_amount` equals the sum of the owner's same-category expenses with
a date in the calendar-month window `[first of month, first of next
month)`, and `remaining_amount + spent_amount = allocated_amount`
(allocation and identifying fields untouched). -/

theorem update_budget_totals_monthly (b : Budget) (expenses : List Expense)
    (y m : ℕ) (hm : b.period_type = "monthly")
    (hp : parsePeriod b.period = some (y, m)) :
    ∃ b', _update_budget_totals b expenses = some b' ∧
      b'.spent_amount = monthlySpent b expenses y m ∧
      b'.remaining_amount + b'.spent_amount = b.allocated_amount ∧
      b'.allocated_amount = b.allocated_amount ∧
      b'.person_id = b.person_id ∧ b'.category = b.category ∧
      b'.period = b.period ∧ b'.period_type = b.period_type := by
  have hb' : _update_budget_totals b expenses =
      some { b with spent_amount := monthlySpent b expenses y m,
                    remaining_amount := b.allocated_amount - monthlySpent b expenses y m } := by
    simp only [_update_budget_totals, hm, hp]
    rfl
  refine ⟨_, hb', rfl, ?_, rfl, rfl, rfl, rfl, rfl⟩
  dsimp only
  ring

/-- C5 witness: recomputing `c5Budget` against `c5Expenses` yields
`spent_amount = 30` and `remaining_amount + spent_amount = 100`. -/

theorem update_budget_totals_monthly_witness :
    ∃ b', _update_budget_totals c5Budget c5Expenses = some b' ∧
      b'.spent_amount = 30 ∧ b'.remaining_amount + b'.spent_amount = 100 := by
  obtain ⟨b', heq, hspent, hsum, -⟩ :=
    update_budget_totals_monthly c5Budget c5Expenses 2026 1 rfl (by decide)
  refine ⟨b', heq, ?_, hsum⟩
  rw [hspent]
  simp +decide [monthlySpent, c5Expenses, c5Budget, dateLe, dateLt]

/-- C7: for a budget whose `period_type` is not `"monthly"` (e.g. a
weekly budget), `_update_budget_totals` returns early as a no-op: the
returned budget is the input row itself, every field unchanged. -/

theorem update_budget_totals_non_monthly (b : Budget) (expenses : List Expense)
    (h : b.period_type ≠ "monthly") :
    _update_budget_totals b expenses = some b := by
  simp only [_update_budget_totals]
  rw [if_neg]
  simpa using h

/-- C7 witness: recomputing the weekly `c7Budget` returns it unchanged,
whatever the expense table holds. -/

theorem update_budget_totals_non_monthly_witness :
    _update_budget_totals c7Budget c5Expenses = some c7Budget :=
  update_budget_totals_non_monthly c7Budget c5Expenses (by decide)

/-- Balance updates do not change the id/owner fields the ownership
lookup reads, so the lookup finds the updated row. -/

lemma findSaving_after_update (l : List Saving) (savingId personId : ℕ)
    (s : Saving) (v : ℚ)
    (h : l.find? (fun x => x.id == savingId && x.person_id == personId) = some s) :
    (l.map (fun x => if x.id == s.id then { x with current_balance := v } else x)).find?
        (fun x => x.id == savingId && x.person_id == personId) =
      some { s with current_balance := v } := by
  rw [find?_map_pred_invariant
      (fun x => if x.id == s.id then { x with current_balance := v } else x)
      (fun x => x.id == savingId && x.person_id == personId)
      (fun x => by by_cases hx : x.id == s.id <;> simp [hx]) l, h]
  simp

/-- Unfolding of `delete_saving_transaction` when both lookups succeed:
the balance is rewritten by the reversal rule and the transaction row is
removed. -/

lemma delete_found_eq (db : SavingsDb) (personId savingId txId : ℕ)
    (s : Saving) (t : SavingTransaction)
    (hfind : findSaving db personId savingId = some s)
    (hft : db.transactions.find?
      (fun x => x.id == txId && x.saving_id == savingId) = some t) :
    delete_saving_transaction db personId savingId txId =
      (.ok "Transaction deleted",
       { savings := db.savings.map (fun x =>
           if x.id == s.id then
             { x with current_balance :=
                 if t.transaction_type == "deposit" || t.transaction_type == "interest" then
                   s.current_balance - t.amount
                 else if t.transaction_type == "withdrawal" then
                   s.current_balance + t.amount
                 else s.current_balance }
           else x),
         transactions := db.transactions.filter (fun x => !(x.id == txId)),
         next_tx_id := db.next_tx_id }) := by
  simp only [delete_saving_transaction, hfind, hft]

/-- C6: a withdrawal whose amount exceeds the account's
`current_balance` is rejected with HTTP 400 and is atomic: the returned
database is exactly the input one (balance unchanged, no
`SavingTransaction` row added); a withdrawal with `amount ≤
current_balance` succeeds with `balance_before = current_balance`,
`balance_after = balance_before - amount`, appends exactly one
`"withdrawal"` row and sets the account's `current_balance` to
`balance_after`. -/

theorem withdraw_from_saving_spec (db : SavingsDb) (personId savingId : ℕ)
    (amount : ℚ) (tdate : PyDate) (s : Saving)
    (hfind : findSaving db personId savingId = some s) (_hpos : 0 < amount) :
    (s.current_balance < amount →
      withdraw_from_saving db personId savingId amount tdate =
        (.error .badRequest, db) ∧ ApiError.badRequest.statusCode = 400) ∧
    (amount ≤ s.current_balance →
      (withdraw_from_saving db personId savingId amount tdate).1 =
        .ok (withdrawTx db savingId amount tdate s) ∧
      (withdrawTx db savingId amount tdate s).transaction_type = "withdrawal" ∧
      (withdrawTx db savingId amount tdate s).balance_before = s.current_balance ∧
      (withdrawTx db savingId amount tdate s).balance_after =
        s.current_balance - amount ∧
      (withdraw_from_saving db personId savingId amount tdate).2.transactions =
        db.transactions ++ [withdrawTx db savingId amount tdate s] ∧
      findSaving (withdraw_from_saving db personId savingId amount tdate).2
          personId savingId =
        some { s with current_balance := s.current_balance - amount }) := by
  constructor
  · intro hlt
    refine ⟨?_, rfl⟩
    simp only [withdraw_from_saving, hfind]
    rw [if_pos hlt]
  · intro hle
    have hcond : ¬ (amount > s.current_balance) := not_lt.mpr hle
    refine ⟨?_, rfl, rfl, rfl, ?_, ?_⟩
    · simp only [withdraw_from_saving, hfind]
      rw [if_neg hcond]
      rfl
    · simp only [withdraw_from_saving, hfind]
      rw [if_neg hcond]
      rfl
    · simp only [withdraw_from_saving, hfind]
      rw [if_neg hcond]
      exact findSaving_after_update db.savings savingId personId s
        (s.current_balance - amount) hfind

/-- C6 witness: withdrawing `7_000_000` from the `5_000_000` account is
rejected with 400 and leaves the database untouched; withdrawing
`1_000_000` succeeds with `balance_after = 4_000_000`. -/

theorem withdraw_from_saving_spec_witness :
    (withdraw_from_saving savDb 1 1 7000000 ⟨2026, 1, 2⟩ =
      (.error .badRequest, savDb) ∧ ApiError.badRequest.statusCode = 400) ∧
    ((withdraw_from_saving savDb 1 1 1000000 ⟨2026, 1, 2⟩).1 =
      .ok (withdrawTx savDb 1 1000000 ⟨2026, 1, 2⟩ savAcct) ∧
      (withdrawTx savDb 1 1000000 ⟨2026, 1, 2⟩ savAcct).balance_after = 4000000) := by
  have h7 := withdraw_from_saving_spec savDb 1 1 7000000 ⟨2026, 1, 2⟩ savAcct rfl
    (by norm_num)
  have h1 := withdraw_from_saving_spec savDb 1 1 1000000 ⟨2026, 1, 2⟩ savAcct rfl
    (by norm_num)
  constructor
  · exact h7.1 (by norm_num [savAcct])
  · obtain ⟨hok, -, -, hafter, -, -⟩ := h1.2 (by norm_num [savAcct])
    refine ⟨hok, ?_⟩
    rw [hafter]
    norm_num [savAcct]

/-- C9: deleting a `SavingTransaction` reverses its effect on the
account balance — deleting a `deposit`/`interest` row subtracts its
amount, deleting a `withdrawal` row adds it back — and consequently
depositing an amount and then deleting the very transaction just created
(its id is the fresh `next_tx_id`) is a round trip: the account row is
restored exactly, and the transaction table returns to its prior
contents. -/

theorem delete_saving_transaction_reverses (db : SavingsDb)
    (personId savingId : ℕ) (s : Saving)
    (hfind : findSaving db personId savingId = some s) :
    (∀ txId t,
      db.transactions.find? (fun x => x.id == txId && x.saving_id == savingId) = some t →
      (delete_saving_transaction db personId savingId txId).1 = .ok "Transaction deleted" ∧
      (t.transaction_type = "deposit" ∨ t.transaction_type = "interest" →
        findSaving (delete_saving_transaction db personId savingId txId).2
            personId savingId =
          some { s with current_balance := s.current_balance - t.amount }) ∧
      (t.transaction_type = "withdrawal" →
        findSaving (delete_saving_transaction db personId savingId txId).2
            personId savingId =
          some { s with current_balance := s.current_balance + t.amount })) ∧
    (∀ (amount : ℚ) (tdate : PyDate),
      (∀ t' ∈ db.transactions, t'.id ≠ db.next_tx_id) →
      findSaving (delete_saving_transaction
          (deposit_to_saving db personId savingId amount tdate).2
          personId savingId db.next_tx_id).2 personId savingId = some s ∧
      (delete_saving_transaction
          (deposit_to_saving db personId savingId amount tdate).2
          personId savingId db.next_tx_id).2.transactions = db.transactions) := by
  constructor
  · intro txId t hft
    have heq := delete_found_eq db personId savingId txId s t hfind hft
    refine ⟨by rw [heq], ?_, ?_⟩
    · intro htype
      have hb : (t.transaction_type == "deposit" || t.transaction_type == "interest") = true := by
        rcases htype with h | h <;> simp [h]
      rw [heq]
      simp only [findSaving, hb, if_true]
      exact findSaving_after_update db.savings savingId personId s
        (s.current_balance - t.amount) hfind
    · intro htype
      have hb1 : (t.transaction_type == "deposit" || t.transaction_type == "interest") = false := by
        simp [htype]
      have hb2 : (t.transaction_type == "withdrawal") = true := by simp [htype]
      rw [heq]
      simp only [findSaving, hb1, hb2, if_true, Bool.false_eq_true, if_false]
      exact findSaving_after_update db.savings savingId personId s
        (s.current_balance + t.amount) hfind
  · intro amount tdate hfresh
    have hdep : (deposit_to_saving db personId savingId amount tdate).2 =
        depositDb db savingId amount tdate s := by
      simp only [deposit_to_saving, hfind, depositDb, depositTx]
    have hfind1 : findSaving (depositDb db savingId amount tdate s) personId savingId =
        some { s with current_balance := s.current_balance + amount } := by
      simp only [depositDb, findSaving]
      exact findSaving_after_update db.savings savingId personId s
        (s.current_balance + amount) hfind
    have hnone : db.transactions.find?
        (fun x => x.id == db.next_tx_id && x.saving_id == savingId) = none := by
      rw [List.find?_eq_none]
      intro x hx
      simp [hfresh x hx]
    have hft : (depositDb db savingId amount tdate s).transactions.find?
        (fun x => x.id == db.next_tx_id && x.saving_id == savingId) =
        some (depositTx db savingId amount tdate s) := by
      simp only [depositDb]
      rw [List.find?_append, hnone]
      simp [depositTx]
    have heq := delete_found_eq (depositDb db savingId amount tdate s)
      personId savingId db.next_tx_id
      ({ s with current_balance := s.current_balance + amount } : Saving)
      (depositTx db savingId amount tdate s) hfind1 hft
    have hb : ((depositTx db savingId amount tdate s).transaction_type == "deposit" ||
        (depositTx db savingId amount tdate s).transaction_type == "interest") = true := by
      simp [depositTx]
    rw [hdep]
    constructor
    · rw [heq]
      simp only [findSaving, hb, if_true]
      have h2 := findSaving_after_update
        ((depositDb db savingId amount tdate s).savings) savingId personId
        ({ s with current_balance := s.current_balance + amount } : Saving)
        (({ s with current_balance := s.current_balance + amount } : Saving).current_balance -
          (depositTx db savingId amount tdate s).amount)
        (by simpa only [findSaving] using hfind1)
      rw [h2]
      have hcancel : ({ s with current_balance := s.current_balance + amount } :
          Saving).current_balance - (depositTx db savingId amount tdate s).amount =
          s.current_balance := by
        dsimp only [depositTx]
        ring
      rw [hcancel]
    · rw [heq]
      simp only [depositDb, List.filter_append]
      rw [List.filter_eq_self.mpr (fun x hx => by simp [hfresh x hx])]
      simp [depositTx]

/-- C9 witness: depositing `1_000_000` into the `5_000_000` account and
deleting the created transaction restores balance `5_000_000` and the
empty transaction table. -/

theorem delete_saving_transaction_reverses_witness :
    findSaving (delete_saving_transaction
        (deposit_to_saving savDb 1 1 1000000 ⟨2026, 1, 3⟩).2 1 1 1).2 1 1 =
      some savAcct ∧
    (delete_saving_transaction
        (deposit_to_saving savDb 1 1 1000000 ⟨2026, 1, 3⟩).2 1 1 1).2.transactions = [] := by
  have h := (delete_saving_transaction_reverses savDb 1 1 savAcct rfl).2
    1000000 ⟨2026, 1, 3⟩ (by intro t' ht'; simp [savDb] at ht')
  exact h

/-- C8: while `locked_until` lies in the future the attempt returns 403
with the account row untouched, identically for a correct and an
incorrect password (the password is never compared); otherwise a failed
comparison returns 401, increments the counter, and `locked_until` is
set to the future instant `now + 30` exactly when the incremented
counter has reached 5 (below 5 it is left unchanged); a successful
comparison resets the counter and clears the lock. -/

theorem login_spec (u : PersonAuth) (now : ℤ) :
    (isLocked u now = true →
      ∀ pwOk, login u pwOk now = (.forbidden, u)) ∧
    (isLocked u now = false →
      (u.auth_provider == "google" && !u.has_password) = false →
      (((login u false now).1 = .unauthorized ∧
        (login u false now).2.failed_login_attempts = u.failed_login_attempts + 1 ∧
        ((login u false now).2.locked_until = some (now + lockoutMinutes) ↔
          5 ≤ u.failed_login_attempts + 1) ∧
        (u.failed_login_attempts + 1 < 5 →
          (login u false now).2.locked_until = u.locked_until) ∧
        now < now + lockoutMinutes) ∧
       ((login u true now).1 = .success ∧
        (login u true now).2.failed_login_attempts = 0 ∧
        (login u true now).2.locked_until = none))) := by
  constructor
  · intro hl pwOk
    simp [login, hl]
  · intro hnl hng
    constructor
    · refine ⟨?_, ?_, ?_, ?_, ?_⟩
      · simp [login, hnl, hng]
      · simp [login, hnl, hng]
      · constructor
        · intro h
          by_cases h5 : 5 ≤ u.failed_login_attempts + 1
          · exact h5
          · exfalso
            simp only [login, hnl, hng, Bool.false_eq_true, if_false,
              Bool.not_false, if_true] at h
            rw [if_neg h5] at h
            have hlock : isLocked u now = true := by
              simp only [isLocked, h]
              simp [lockoutMinutes]
            rw [hlock] at hnl
            exact absurd hnl (by simp)
        · intro h5
          simp only [login, hnl, hng, Bool.false_eq_true, if_false,
            Bool.not_false, if_true]
          rw [if_pos h5]
      · intro h5
        simp only [login, hnl, hng, Bool.false_eq_true, if_false,
          Bool.not_false, if_true]
        rw [if_neg (by omega)]
      · simp [lockoutMinutes]
    · refine ⟨?_, ?_, ?_⟩ <;> simp [login, hnl, hng]

/-- C8 witness: at minute `0` the locked user gets 403 even with a
correct password; the user with 4 prior failures reaches 5 on a wrong
password and is locked until minute 30; a correct password resets the
counter. -/

theorem login_spec_witness :
    login lockedUser true 0 = (.forbidden, lockedUser) ∧
    (login user4Fails false 0).2.failed_login_attempts = 5 ∧
    (login user4Fails false 0).2.locked_until = some 30 ∧
    (login user4Fails true 0).2.failed_login_attempts = 0 := by
  have hl := (login_spec lockedUser 0).1 (by decide) true
  have h4 := (login_spec user4Fails 0).2 (by decide) (by decide)
  refine ⟨hl, ?_, ?_, h4.2.2.1⟩
  · rw [h4.1.2.1]
    decide
  · have hlk := h4.1.2.2.1.mpr (by decide)
    rw [hlk]
    decide

/-- C10: `delete_goal` on a found goal toggles the soft-delete flag — a
non-deleted (falsy flag) goal becomes `deleted = True`, an
already-deleted goal becomes `deleted = False` (restored) — returns the
same `"Goal deleted"` message in both cases, and removes nothing: the
task and subtask tables are untouched and the goals table keeps the same
number of rows, with the goal still present (only its flag changed). -/

theorem delete_goal_toggles (db : GTDb) (gid : ℕ) (g : Goal)
    (hfind : db.goals.find? (fun x => x.id == gid) = some g) :
    (delete_goal db gid).1 = .ok "Goal deleted" ∧
    (delete_goal db gid).2.tasks = db.tasks ∧
    (delete_goal db gid).2.subtasks = db.subtasks ∧
    (delete_goal db gid).2.goals.length = db.goals.length ∧
    (delete_goal db gid).2.goals.find? (fun x => x.id == gid) =
      some { g with deleted := if truthy g.deleted then some false else some true } ∧
    (truthy g.deleted = false →
      (delete_goal db gid).2.goals.find? (fun x => x.id == gid) =
        some { g with deleted := some true }) ∧
    (truthy g.deleted = true →
      (delete_goal db gid).2.goals.find? (fun x => x.id == gid) =
        some { g with deleted := some false }) := by
  have hfound : (delete_goal db gid).2.goals.find? (fun x => x.id == gid) =
      some { g with deleted := if truthy g.deleted then some false else some true } := by
    simp only [delete_goal, hfind]
    rw [find?_map_pred_invariant
        (fun x => if x.id == g.id then
          { x with deleted := if truthy g.deleted then some false else some true }
          else x)
        (fun x => x.id == gid)
        (fun x => by by_cases hx : x.id == g.id <;> simp [hx]) db.goals, hfind]
    simp
  refine ⟨?_, ?_, ?_, ?_, hfound, ?_, ?_⟩
  · simp only [delete_goal, hfind]
  · simp only [delete_goal, hfind]
  · simp only [delete_goal, hfind]
  · simp only [delete_goal, hfind, List.length_map]
  · intro h
    rw [hfound, h]
    simp
  · intro h
    rw [hfound, h]
    simp

/-- C10 witness: deleting goal 7 (live) marks it deleted, deleting goal 8
(already deleted) restores it; both return the same message and the task
table is untouched. -/

theorem delete_goal_toggles_witness :
    (delete_goal c10Db 7).1 = .ok "Goal deleted" ∧
    (delete_goal c10Db 7).2.goals.find? (fun x => x.id == 7) =
      some { c10LiveGoal with deleted := some true } ∧
    (delete_goal c10Db 8).1 = .ok "Goal deleted" ∧
    (delete_goal c10Db 8).2.goals.find? (fun x => x.id == 8) =
      some { c10DeletedGoal with deleted := some false } ∧
    (delete_goal c10Db 7).2.tasks = c10Db.tasks := by
  have h7 := delete_goal_toggles c10Db 7 c10LiveGoal (by decide)
  have h8 := delete_goal_toggles c10Db 8 c10DeletedGoal (by decide)
  exact ⟨h7.1, h7.2.2.2.2.2.1 (by decide), h8.1, h8.2.2.2.2.2.2 (by decide), h7.2.1⟩

end LifeTracker

